/-
Verification of the log-classification core: a shallow embedding of the
waterfall dispatcher (classify.py), the regex tier (processor_regex.py),
the BERT confidence tier (processor_bert.py), the LLM fallback tier
(processor_llm.py) and the metrics recorder (metrics.py), with theorems
settling the specification claims about them.
-/
import Mathlib

namespace LogClassify

/-! ## A small regex engine

`processor_regex.py` evaluates Python regexes with `re.search`.  The rule
table only uses literal characters, `.` (any character except newline),
`\d+`, alternation `(a|b)` and `.*`, so we embed exactly those constructs
and give them their Python semantics via Brzozowski derivatives. -/

inductive Regex where
  | void : Regex
  | eps : Regex
  | dot : Regex
  | digit : Regex
  | chr : Char → Regex
  | cat : Regex → Regex → Regex
  | alt : Regex → Regex → Regex
  | star : Regex → Regex
deriving DecidableEq

def nullable : Regex → Bool
  | .void => false
  | .eps => true
  | .dot => false
  | .digit => false
  | .chr _ => false
  | .cat a b => nullable a && nullable b
  | .alt a b => nullable a || nullable b
  | .star _ => true

def deriv : Regex → Char → Regex
  | .void, _ => .void
  | .eps, _ => .void
  | .dot, c => if c = '\n' then .void else .eps
  | .digit, c => if c.isDigit then .eps else .void
  | .chr a, c => if c = a then .eps else .void
  | .cat a b, c =>
      if nullable a then .alt (.cat (deriv a c) b) (deriv b c)
      else .cat (deriv a c) b
  | .alt a b, c => .alt (deriv a c) (deriv b c)
  | .star a, c => .cat (deriv a c) (.star a)

/-- Can `r` match some prefix of `l` (the anchored part of `re.search`)? -/
def matchSomePre (r : Regex) : List Char → Bool
  | [] => nullable r
  | c :: cs => nullable r || matchSomePre (deriv r c) cs

/-- `re.search` semantics: `r` matches starting at some position of `l`. -/
def searchL (r : Regex) : List Char → Bool
  | [] => nullable r
  | c :: cs => matchSomePre r (c :: cs) || searchL r cs

def reSearch (r : Regex) (s : String) : Bool := searchL r s.data

/-- A literal string as a regex. -/
def lit (s : String) : Regex := s.data.foldr (fun c r => .cat (.chr c) r) .eps

/-- `r+` as `r r*`. -/
def rplus (r : Regex) : Regex := .cat r (.star r)

/-- `.*` -/
def dotStar : Regex := .star .dot

/-! ## Regex tier (`processor_regex.py`, `RegexClassifier`)

A table entry's pattern either compiled (`ok`) or raises `re.error` when
evaluated (`malformed`); `RegexClassifier.classify` catches `re.error`
per entry and continues with the rest of the table. -/

inductive TablePat where
  | ok : Regex → TablePat
  | malformed : TablePat
deriving DecidableEq

/-- `r"User User\d+ logged (in|out)."` -/
def pat1 : Regex :=
  .cat (lit "User User") (.cat (rplus .digit)
    (.cat (lit " logged ") (.cat (.alt (lit "in") (lit "out")) .dot)))

/-- `r"Backup (started|ended) at .*"` -/
def pat2 : Regex :=
  .cat (lit "Backup ") (.cat (.alt (lit "started") (lit "ended"))
    (.cat (lit " at ") dotStar))

/-- `r"Backup completed successfully."` -/
def pat3 : Regex := .cat (lit "Backup completed successfully") .dot

/-- `r"System updated to version .*"` -/
def pat4 : Regex := .cat (lit "System updated to version ") dotStar

/-- `r"File .* uploaded successfully by user .*"` -/
def pat5 : Regex :=
  .cat (lit "File ") (.cat dotStar
    (.cat (lit " uploaded successfully by user ") dotStar))

/-- `r"Disk cleanup completed successfully."` -/
def pat6 : Regex := .cat (lit "Disk cleanup completed successfully") .dot

/-- `r"System reboot initiated by user .*"` -/
def pat7 : Regex := .cat (lit "System reboot initiated by user ") dotStar

/-- `r"Account with ID .* created by .*"` -/
def pat8 : Regex :=
  .cat (lit "Account with ID ") (.cat dotStar (.cat (lit " created by ") dotStar))

/-- The `regex_patterns` insertion-ordered table of `RegexClassifier.__init__`. -/
def regexPatterns : List (TablePat × String) :=
  [ (.ok pat1, "User Action"),
    (.ok pat2, "System Notification"),
    (.ok pat3, "System Notification"),
    (.ok pat4, "System Notification"),
    (.ok pat5, "System Notification"),
    (.ok pat6, "System Notification"),
    (.ok pat7, "System Notification"),
    (.ok pat8, "User Action") ]

/-- The `for pattern, label in self.regex_patterns.items()` loop of
`RegexClassifier.classify`: first match anywhere wins, a pattern that
raises `re.error` is skipped (`continue`) and the table keeps evaluating. -/
def classifyGo : List (TablePat × String) → String → Option String
  | [], _ => none
  | (TablePat.malformed, _) :: rest, msg => classifyGo rest msg
  | (TablePat.ok r, label) :: rest, msg =>
      if reSearch r msg then some label else classifyGo rest msg

/-- `RegexClassifier.classify`, generic in the table: an empty message
(`if not log_message`) returns `None` before the table is consulted. -/
def regexClassify (table : List (TablePat × String)) (msg : String) : Option String :=
  if msg = "" then none else classifyGo table msg

/-- `classify_with_regex`: the module-level entry over the concrete table. -/
def classify_with_regex (msg : String) : Option String :=
  regexClassify regexPatterns msg

/-! ## Confidence tier (`processor_bert.py`, `BERTClassifier`)

The embedding model and the probabilistic predictor are external
artifacts; we model their composition as a function from the message to a
probability per label (`predict_proba`), with `predict` the first
arg-max, as for the scikit-learn predictor the source loads. -/

structure BertModel where
  threshold : ℚ
  predictProba : String → List (String × ℚ)

/-- `np.max(probabilities)` over the returned distribution. -/
def maxProb (ps : List (String × ℚ)) : ℚ := (ps.map Prod.snd).foldr max 0

/-- `model.predict(...)`: the label of the first maximal probability. -/
def argmaxLabel : List (String × ℚ) → String
  | [] => ""
  | (l, p) :: rest => if maxProb rest > p then argmaxLabel rest else l

/-- `BERTClassifier.classify`: empty input short-circuits to
`("Unclassified", 0.0)`; a top probability below the threshold yields
`("Unclassified", max_prob)`; otherwise the predicted label with that
same probability. -/
def bertClassify (m : BertModel) (msg : String) : String × ℚ :=
  if msg = "" then ("Unclassified", 0)
  else
    let ps := m.predictProba msg
    let maxp := maxProb ps
    if maxp < m.threshold then ("Unclassified", maxp)
    else (argmaxLabel ps, maxp)

/-- `classify_with_bert`: drops the confidence component. -/
def classify_with_bert (m : BertModel) (msg : String) : String :=
  (bertClassify m msg).1

/-! ## Generative tier (`processor_llm.py`, `LLMClassifier`)

`re.search(r'<category>(.*)</category>', content, re.DOTALL)`: the
leftmost match starts at the first occurrence of `<category>` and the
greedy group extends to the last occurrence of `</category>` after it. -/

def isPre : List Char → List Char → Bool
  | [], _ => true
  | _ :: _, [] => false
  | a :: as, b :: bs => a = b && isPre as bs

/-- Index of the first occurrence of `pat` in `s`. -/
def findFirstIdx (pat : List Char) : List Char → Option Nat
  | [] => if isPre pat [] then some 0 else none
  | c :: cs => if isPre pat (c :: cs) then some 0 else (findFirstIdx pat cs).map (· + 1)

/-- Index of the last occurrence of `pat` in `s` at a position `≥ start`. -/
def findLastFrom (pat s : List Char) (start : Nat) : Option Nat :=
  ((List.range (s.length + 1)).filter (fun i => start ≤ i && isPre pat (s.drop i))).getLast?

/-- Python `str.strip()` on both ends. -/
def trimWs (l : List Char) : List Char :=
  ((l.dropWhile Char.isWhitespace).reverse.dropWhile Char.isWhitespace).reverse

def openTag : List Char := "<category>".data

def closeTag : List Char := "</category>".data

/-- The category-extraction step of `LLMClassifier.classify`:
`match.group(1).strip() if match else "Unclassified"`. -/
def extractCategory (content : String) : String :=
  let s := content.data
  match findFirstIdx openTag s with
  | none => "Unclassified"
  | some i =>
    match findLastFrom closeTag s (i + openTag.length) with
    | none => "Unclassified"
    | some j =>
      String.mk (trimWs ((s.drop (i + openTag.length)).take (j - (i + openTag.length))))

/-- Observable outcome of one `LLMClassifier.classify` call: the returned
label, how many remote attempts were made, and the sleeps performed (in
seconds, in order). -/
structure LLMResult where
  label : String
  attempts : Nat
  sleeps : List ℚ
deriving DecidableEq

/-- The `for attempt in range(self.max_retries)` loop: a successful remote
call returns the extracted category at once; a failing attempt sleeps
`retry_delay * (attempt + 1)` when attempts remain (`continue`) and
otherwise returns `"Unclassified"`. -/
def llmLoop (remote : Nat → Except Unit String) (delay : ℚ) : List Nat → LLMResult
  | [] => ⟨"Unclassified", 0, []⟩
  | attempt :: rest =>
    match remote attempt with
    | .ok content => ⟨extractCategory content, 1, []⟩
    | .error _ =>
      match rest with
      | [] => ⟨"Unclassified", 1, []⟩
      | r1 :: rs =>
        let r := llmLoop remote delay (r1 :: rs)
        ⟨r.label, r.attempts + 1, delay * ((attempt : ℚ) + 1) :: r.sleeps⟩

/-- `LLMClassifier.classify`, generic in `retry_delay` and `max_retries`:
an empty message returns `"Unclassified"` before any remote call. -/
def llmClassifyGen (remote : Nat → Except Unit String) (delay : ℚ) (maxRetries : Nat)
    (msg : String) : LLMResult :=
  if msg = "" then ⟨"Unclassified", 0, []⟩ else llmLoop remote delay (List.range maxRetries)

/-- `self.max_retries = 3` in `LLMClassifier.__init__`. -/
def llmMaxRetries : Nat := 3

/-- `self.retry_delay = 1` (seconds) in `LLMClassifier.__init__`. -/
def llmRetryDelay : ℚ := 1

/-- `classify_with_llm` with the constructed client's constants. -/
def llmClassify (remote : Nat → Except Unit String) (msg : String) : LLMResult :=
  llmClassifyGen remote llmRetryDelay llmMaxRetries msg

/-! ## Metrics recorder (`metrics.py`, `Metrics`)

`classifications_by_method` is a Python dict: lookup with default 0
(`dict.get(method, 0)`), in-place update of an existing key, insertion at
the end for a new one. -/

def dictGet : List (String × Nat) → String → Nat
  | [], _ => 0
  | (k', v) :: rest, k => if k' = k then v else dictGet rest k

def dictSet : List (String × Nat) → String → Nat → List (String × Nat)
  | [], k, v => [(k, v)]
  | (k', v') :: rest, k, v =>
      if k' = k then (k, v) :: rest else (k', v') :: dictSet rest k v

structure MetricsState where
  total_classifications : Nat
  byMethod : List (String × Nat)
  total_processing_time_ms : ℚ
  error_count : Nat
  request_count : Nat
deriving DecidableEq

/-- The `Metrics` dataclass defaults. -/
def initMetrics : MetricsState :=
  ⟨0, [("regex", 0), ("bert", 0), ("llm", 0), ("unclassified", 0), ("error", 0)], 0, 0, 0⟩

/-- `Metrics.record_classification`. -/
def record_classification (s : MetricsState) (method : String) (t : ℚ)
    (error : Bool) : MetricsState :=
  let s1 := { s with total_classifications := s.total_classifications + 1,
                     request_count := s.request_count + 1 }
  if error then
    { s1 with error_count := s1.error_count + 1,
              byMethod := dictSet s1.byMethod "error" (dictGet s1.byMethod "error" + 1) }
  else
    { s1 with byMethod := dictSet s1.byMethod method (dictGet s1.byMethod method + 1),
              total_processing_time_ms := s1.total_processing_time_ms + t }

/-- `Metrics.get_average_processing_time` (the computation under the lock). -/
def get_average_processing_time (s : MetricsState) : ℚ :=
  if s.total_classifications - s.error_count = 0 then 0
  else s.total_processing_time_ms / ((s.total_classifications - s.error_count : ℕ) : ℚ)

/-- `Metrics.get_error_rate` (the computation under the lock): note the
`* 100` — the source returns a percentage. -/
def get_error_rate (s : MetricsState) : ℚ :=
  if s.request_count = 0 then 0
  else ((s.error_count : ℚ) / (s.request_count : ℚ)) * 100

/-- `with self._lock:` on the non-reentrant `threading.Lock`: entering
with the lock already held blocks forever, modelled as `none`. -/
def withLock (held : Bool) (body : α) : Option α :=
  if held then none else some body

/-- `Metrics.get_average_processing_time` as executed: acquires the lock. -/
def get_average_processing_time_locked (s : MetricsState) (held : Bool) : Option ℚ :=
  withLock held (get_average_processing_time s)

/-- `Metrics.get_error_rate` as executed: acquires the lock. -/
def get_error_rate_locked (s : MetricsState) (held : Bool) : Option ℚ :=
  withLock held (get_error_rate s)

/-- The fields of the dictionary `Metrics.to_dict` builds (uptime is a
wall-clock input). -/
structure Snapshot where
  total_classifications : Nat
  classifications_by_method : List (String × Nat)
  average_processing_time_ms : ℚ
  error_rate : ℚ
  uptime_seconds : ℚ
  total_requests : Nat
  total_errors : Nat
deriving DecidableEq

/-- `Metrics.to_dict` as executed: acquires the lock, then computes the
derived fields by calling the getter methods, each of which acquires the
same lock again. -/
def to_dict (s : MetricsState) (uptime : ℚ) (held : Bool) : Option Snapshot :=
  if held then none
  else
    match get_average_processing_time_locked s true, get_error_rate_locked s true with
    | some avg, some er =>
        some ⟨s.total_classifications, s.byMethod, avg, er, uptime,
              s.request_count, s.error_count⟩
    | _, _ => none

/-! ## Waterfall dispatcher (`classify.py`, `classify_log`)

The three subordinate tiers are injected as fallible operations
(`Except Unit` models a raised exception); the dispatch records which
tiers were invoked, the label, the method string passed to
`metrics.record_classification`, and the error flag. -/

inductive TierTag where
  | regexT : TierTag
  | bertT : TierTag
  | llmT : TierTag
deriving DecidableEq

structure Tiers where
  regexTier : String → Except Unit (Option String)
  bertTier : String → Except Unit String
  llmTier : String → Except Unit String

structure DispatchResult where
  label : String
  methodRecorded : String
  errorFlag : Bool
  invoked : List TierTag
deriving DecidableEq

/-- `classify_log`: `LegacyCRM` goes to the LLM tier only; all other
sources try regex first and fall back to BERT exactly when the regex tier
returned `None`. Any exception from the executed tier chain is caught:
the call returns `"Unclassified"` and records one `"error"` event with
the error flag set. Exactly one metrics event is recorded per call.
`t` is the measured wall-clock time of the call. -/
def classify_log (tiers : Tiers) (source msg : String) (t : ℚ)
    (s : MetricsState) : DispatchResult × MetricsState :=
  if source = "LegacyCRM" then
    match tiers.llmTier msg with
    | .ok label =>
        (⟨label, "llm", false, [.llmT]⟩, record_classification s "llm" t false)
    | .error _ =>
        (⟨"Unclassified", "error", true, [.llmT]⟩, record_classification s "error" t true)
  else
    match tiers.regexTier msg with
    | .ok (some label) =>
        (⟨label, "regex", false, [.regexT]⟩, record_classification s "regex" t false)
    | .ok none =>
        match tiers.bertTier msg with
        | .ok label =>
            (⟨label, "bert", false, [.regexT, .bertT]⟩,
             record_classification s "bert" t false)
        | .error _ =>
            (⟨"Unclassified", "error", true, [.regexT, .bertT]⟩,
             record_classification s "error" t true)
    | .error _ =>
        (⟨"Unclassified", "error", true, [.regexT]⟩,
         record_classification s "error" t true)

/-- A sequence of dispatcher calls threading the metrics state. -/
def runSeq (tiers : Tiers) : List (String × String × ℚ) → MetricsState → MetricsState
  | [], s => s
  | (src, msg, t) :: rest, s => runSeq tiers rest (classify_log tiers src msg t s).2

/-- The production wiring: the regex tier over the concrete table, the
BERT tier over a loaded model, the LLM tier over a remote service (whose
per-call failures `classify_with_llm` already absorbs). -/
def systemTiers (bert : BertModel) (remote : Nat → Except Unit String) : Tiers :=
  ⟨fun msg => .ok (classify_with_regex msg),
   fun msg => .ok (classify_with_bert bert msg),
   fun msg => .ok (llmClassify remote msg).label⟩

/-! ## Concrete instances used to exercise the theorems -/

/-- Does `pat` occur as a contiguous substring of `s`? -/
def containsSub (pat s : List Char) : Bool :=
  (List.range (s.length + 1)).any (fun i => isPre pat (s.drop i))

/-- A metrics state reached by one successful and one errored record. -/
def errState : MetricsState :=
  record_classification (record_classification initMetrics "regex" 10 false) "error" 5 true

/-- A loaded confidence model that is always certain. -/
def bertStub : BertModel := ⟨1/2, fun _ => [("Workflow Error", 1)]⟩

/-- A loaded confidence model whose top class is confident at 3/4. -/
def bertTwo : BertModel := ⟨1/2, fun _ => [("User Action", 1/4), ("Security Alert", 3/4)]⟩

/-- A remote service whose response's category tags enclose nothing. -/
def remoteEmptyCat : Nat → Except Unit String := fun _ => .ok "<category></category>"

/-- Tiers that all raise. -/
def failTiers : Tiers := ⟨fun _ => .error (), fun _ => .error (), fun _ => .error ()⟩

/-- Tiers with a regex hit on one fixed message and fixed lower tiers. -/
def stubTiers : Tiers :=
  ⟨fun m => .ok (if m = "match me" then some "Pattern Label" else none),
   fun _ => .ok "Bert Label",
   fun _ => .ok "Llm Label"⟩

/-- Tiers whose regex tier misses and whose lower tiers are unconfident. -/
def lowConfTiers : Tiers :=
  ⟨fun _ => .ok none, fun _ => .ok "Unclassified", fun _ => .ok "Unclassified"⟩

/-! ## Dictionary lemmas -/

theorem dictGet_dictSet_same (m : List (String × Nat)) (k : String) (v : Nat) :
    dictGet (dictSet m k v) k = v := by
  induction m with
  | nil => simp [dictSet, dictGet]
  | cons e rest ih =>
    obtain ⟨k', v'⟩ := e
    by_cases h : k' = k
    · subst h; simp [dictSet, dictGet]
    · simp [dictSet, dictGet, h, ih]

theorem dictGet_dictSet_ne (m : List (String × Nat)) (k k' : String) (v : Nat)
    (h : k' ≠ k) : dictGet (dictSet m k v) k' = dictGet m k' := by
  induction m with
  | nil => simp [dictSet, dictGet, Ne.symm h]
  | cons e rest ih =>
    obtain ⟨k0, v0⟩ := e
    by_cases h0 : k0 = k
    · subst h0; simp [dictSet, dictGet, Ne.symm h]
    · by_cases h1 : k0 = k'
      · subst h1; simp [dictSet, dictGet, h0]
      · simp [dictSet, dictGet, h0, h1, ih]

/-! ## C7 — error rate -/

/-- C7 counterexample: after one successful and one errored record, the
error-rate read returns `50` (a percentage), not the ratio
`error_count / request_count = 1/2` the claim states. -/
theorem get_error_rate_not_ratio_cex :
    get_error_rate errState ≠ (errState.error_count : ℚ) / (errState.request_count : ℚ) := by
  norm_num [errState, get_error_rate, record_classification, initMetrics, dictGet, dictSet]

/-- C7 amended: the error-rate read returns `(errors ÷ total requests) × 100`
— a percentage — and `0` when no requests have been recorded yet. -/
theorem get_error_rate_percentage (s : MetricsState) :
    (s.request_count = 0 → get_error_rate s = 0) ∧
    (s.request_count ≠ 0 →
      get_error_rate s = ((s.error_count : ℚ) / (s.request_count : ℚ)) * 100) := by
  constructor <;> intro h <;> simp [get_error_rate, h]

/-- C7 witness: the amended statement evaluated on the fresh state and on
a state with one error out of two requests. -/
theorem get_error_rate_percentage_witness :
    get_error_rate initMetrics = 0 ∧
    get_error_rate errState =
      ((errState.error_count : ℚ) / (errState.request_count : ℚ)) * 100 :=
  ⟨(get_error_rate_percentage initMetrics).1 rfl,
   (get_error_rate_percentage errState).2 (by decide)⟩

/-! ## C8 — the metrics snapshot deadlocks -/

/-- C8: `Metrics.to_dict` acquires the non-reentrant lock and then calls
`get_average_processing_time`/`get_error_rate`, each of which acquires
the same lock again, so no snapshot call ever completes: the claim that
every snapshot call completes under the critical section is what the code
was meant to do, but the nested acquire blocks forever on every input. -/
theorem to_dict_deadlocks (s : MetricsState) (uptime : ℚ) :
    to_dict s uptime false = none := by
  simp [to_dict, get_average_processing_time_locked, withLock]

/-! ## C4 — confidence thresholding -/

/-- C4: for every loaded model and non-empty message, a top probability
strictly below the threshold yields `("Unclassified", p)` and otherwise
the arg-max label is returned with that same probability `p`. -/
theorem bert_threshold (m : BertModel) (msg : String) (hmsg : msg ≠ "") :
    (maxProb (m.predictProba msg) < m.threshold →
      bertClassify m msg = ("Unclassified", maxProb (m.predictProba msg))) ∧
    (¬ maxProb (m.predictProba msg) < m.threshold →
      bertClassify m msg = (argmaxLabel (m.predictProba msg), maxProb (m.predictProba msg))) := by
  constructor <;> intro h <;> simp [bertClassify, hmsg, h]

/-- C4 witness: a 3/4-confident model accepts its arg-max label, and the
always-certain model does too. -/
theorem bert_threshold_witness :
    bertClassify bertTwo "disk failure on node 4" =
      (argmaxLabel (bertTwo.predictProba "disk failure on node 4"),
       maxProb (bertTwo.predictProba "disk failure on node 4")) :=
  (bert_threshold bertTwo "disk failure on node 4" (by decide)).2
    (by norm_num [bertTwo, maxProb])

/-! ## C5 — retry exhaustion -/

/-- C5: when every remote attempt fails, `LLMClassifier.classify` makes
exactly 3 attempts, sleeps `baseDelay` after the first and
`2 × baseDelay` after the second (none after the last), and returns
`"Unclassified"` without raising. -/
theorem llm_retry_exhaustion (remote : Nat → Except Unit String) (delay : ℚ)
    (msg : String) (hfail : ∀ n, remote n = .error ()) (hmsg : msg ≠ "") :
    llmClassifyGen remote delay llmMaxRetries msg =
      ⟨"Unclassified", 3, [delay * 1, delay * 2]⟩ := by
  simp [llmClassifyGen, hmsg, llmMaxRetries, List.range_succ, llmLoop, hfail]
  norm_num

/-- C5 witness: the constructed client (`retry_delay = 1`) against a
permanently failing remote service. -/
theorem llm_retry_exhaustion_witness :
    llmClassifyGen (fun _ => .error ()) 1 llmMaxRetries "timeout storm" =
      ⟨"Unclassified", 3, [1 * 1, 1 * 2]⟩ :=
  llm_retry_exhaustion (fun _ => .error ()) 1 "timeout storm" (fun _ => rfl) (by decide)

/-! ## C1 — the dispatcher absorbs tier exceptions -/

/-- C1 counterexample: with the production wiring and a remote response
whose category tags enclose nothing, `classify_log` returns the empty
label, so the claim that every returned label is non-empty fails. -/
theorem classify_log_empty_label_cex :
    (classify_log (systemTiers bertStub remoteEmptyCat) "LegacyCRM"
        "Case escalation for ticket ID 7324 failed" 1 initMetrics).1.label = "" := by
  norm_num [classify_log, systemTiers, remoteEmptyCat, llmClassify, llmClassifyGen,
    llmLoop, llmMaxRetries, llmRetryDelay, List.range_succ]
  decide

/-- C1 amended: `classify_log` is total (it raises nothing); whenever the
executed tier chain raises, the call returns `"Unclassified"`, records one
metrics event with method `"error"` and the error flag set, and does not
re-raise; and the returned label is non-empty provided every successful
tier result is a non-empty label. -/
theorem classify_log_absorbs_errors (tiers : Tiers) (source msg : String)
    (t : ℚ) (s : MetricsState) :
    ((source = "LegacyCRM" ∧ tiers.llmTier msg = .error ()) ∨
      (source ≠ "LegacyCRM" ∧ (tiers.regexTier msg = .error () ∨
        (tiers.regexTier msg = .ok none ∧ tiers.bertTier msg = .error ()))) →
      (classify_log tiers source msg t s).1.label = "Unclassified" ∧
      (classify_log tiers source msg t s).1.methodRecorded = "error" ∧
      (classify_log tiers source msg t s).1.errorFlag = true ∧
      (classify_log tiers source msg t s).2 = record_classification s "error" t true) ∧
    ((∀ l, tiers.llmTier msg = .ok l → l ≠ "") →
      (∀ l, tiers.regexTier msg = .ok (some l) → l ≠ "") →
      (∀ l, tiers.bertTier msg = .ok l → l ≠ "") →
      (classify_log tiers source msg t s).1.label ≠ "") := by
  by_cases hsrc : source = "LegacyCRM"
  · rcases hllm : tiers.llmTier msg with e | l
    · constructor
      · intro hcase
        simp [classify_log, hsrc, hllm]
      · intro h1 h2 h3
        simp [classify_log, hsrc, hllm]
    · constructor
      · rintro (⟨-, hco⟩ | ⟨hne, -⟩)
        · cases hco
        · exact absurd hsrc hne
      · intro h1 h2 h3
        have := h1 l rfl
        simp [classify_log, hsrc, hllm, this]
  · rcases hre : tiers.regexTier msg with e | ol
    · constructor
      · intro hcase
        simp [classify_log, hsrc, hre]
      · intro h1 h2 h3
        simp [classify_log, hsrc, hre]
    · rcases ol with - | l
      · rcases hbe : tiers.bertTier msg with e | lb
        · constructor
          · intro hcase
            simp [classify_log, hsrc, hre, hbe]
          · intro h1 h2 h3
            simp [classify_log, hsrc, hre, hbe]
        · constructor
          · rintro (⟨hsrc', -⟩ | ⟨-, hco | ⟨-, hco⟩⟩)
            · exact absurd hsrc' hsrc
            · cases hco
            · cases hco
          · intro h1 h2 h3
            have := h3 lb rfl
            simp [classify_log, hsrc, hre, hbe, this]
      · constructor
        · rintro (⟨hsrc', -⟩ | ⟨-, hco | ⟨hco, -⟩⟩)
          · exact absurd hsrc' hsrc
          · cases hco
          · cases hco
        · intro h1 h2 h3
          have := h2 l rfl
          simp [classify_log, hsrc, hre, this]

/-- C1 witness: a raising LLM tier on the generative-only source is
absorbed and recorded as one error event. -/
theorem classify_log_absorbs_errors_witness :
    (classify_log failTiers "LegacyCRM" "boom" 1 initMetrics).1.label = "Unclassified" ∧
    (classify_log failTiers "LegacyCRM" "boom" 1 initMetrics).1.methodRecorded = "error" ∧
    (classify_log failTiers "LegacyCRM" "boom" 1 initMetrics).1.errorFlag = true ∧
    (classify_log failTiers "LegacyCRM" "boom" 1 initMetrics).2 =
      record_classification initMetrics "error" 1 true :=
  (classify_log_absorbs_errors failTiers "LegacyCRM" "boom" 1 initMetrics).1
    (Or.inl ⟨rfl, rfl⟩)

/-! ## C2 — routing -/

/-- C2: `LegacyCRM` invokes the LLM tier alone and returns its result;
any other source invokes the regex tier first, invokes the BERT tier
exactly when the regex tier returned `None`, never invokes the LLM tier,
and a regex hit is returned at once and recorded with the `"regex"`
method. -/
theorem classify_log_routing (tiers : Tiers) (source msg : String)
    (t : ℚ) (s : MetricsState) :
    (source = "LegacyCRM" →
      (classify_log tiers source msg t s).1.invoked = [TierTag.llmT] ∧
      ∀ l, tiers.llmTier msg = .ok l →
        (classify_log tiers source msg t s).1.label = l ∧
        (classify_log tiers source msg t s).1.methodRecorded = "llm") ∧
    (source ≠ "LegacyCRM" →
      (classify_log tiers source msg t s).1.invoked.head? = some TierTag.regexT ∧
      TierTag.llmT ∉ (classify_log tiers source msg t s).1.invoked ∧
      (TierTag.bertT ∈ (classify_log tiers source msg t s).1.invoked ↔
        tiers.regexTier msg = .ok none) ∧
      (∀ l, tiers.regexTier msg = .ok (some l) →
        (classify_log tiers source msg t s).1.invoked = [TierTag.regexT] ∧
        (classify_log tiers source msg t s).1.label = l ∧
        (classify_log tiers source msg t s).1.methodRecorded = "regex" ∧
        (classify_log tiers source msg t s).2 =
          record_classification s "regex" t false)) := by
  constructor
  · intro hsrc
    rcases hllm : tiers.llmTier msg with e | l
    · refine ⟨by simp [classify_log, hsrc, hllm], ?_⟩
      intro l' hco; cases hco
    · refine ⟨by simp [classify_log, hsrc, hllm], ?_⟩
      intro l' hco
      cases hco
      simp [classify_log, hsrc, hllm]
  · intro hsrc
    rcases hre : tiers.regexTier msg with e | ol
    · refine ⟨by simp [classify_log, hsrc, hre], by simp [classify_log, hsrc, hre], ?_, ?_⟩
      · simp [classify_log, hsrc, hre]
      · intro l hco; cases hco
    · rcases ol with - | l
      · rcases hbe : tiers.bertTier msg with e | lb
        · refine ⟨by simp [classify_log, hsrc, hre, hbe],
            by simp [classify_log, hsrc, hre, hbe], ?_, ?_⟩
          · simp [classify_log, hsrc, hre, hbe]
          · intro l hco; cases hco
        · refine ⟨by simp [classify_log, hsrc, hre, hbe],
            by simp [classify_log, hsrc, hre, hbe], ?_, ?_⟩
          · simp [classify_log, hsrc, hre, hbe]
          · intro l hco; cases hco
      · refine ⟨by simp [classify_log, hsrc, hre], by simp [classify_log, hsrc, hre], ?_, ?_⟩
        · simp [classify_log, hsrc, hre]
        · intro l' hco
          cases hco
          simp [classify_log, hsrc, hre]

/-- C2 witness: the routing statement evaluated on concrete tiers — the
generative-only source, a regex hit, and a regex miss. -/
theorem classify_log_routing_witness :
    (classify_log stubTiers "LegacyCRM" "m" 1 initMetrics).1.invoked = [TierTag.llmT] ∧
    ((classify_log stubTiers "WebServer" "match me" 1 initMetrics).1.label = "Pattern Label" ∧
      (classify_log stubTiers "WebServer" "match me" 1 initMetrics).1.methodRecorded = "regex") ∧
    TierTag.bertT ∈ (classify_log stubTiers "WebServer" "miss" 1 initMetrics).1.invoked := by
  refine ⟨((classify_log_routing stubTiers "LegacyCRM" "m" 1 initMetrics).1 rfl).1, ?_, ?_⟩
  · have h := (((classify_log_routing stubTiers "WebServer" "match me" 1
        initMetrics).2 (by decide)).2.2.2) "Pattern Label" (by simp [stubTiers])
    exact ⟨h.2.1, h.2.2.1⟩
  · exact (((classify_log_routing stubTiers "WebServer" "miss" 1
      initMetrics).2 (by decide)).2.2.1).mpr (by simp [stubTiers])

/-! ## Substring-search lemmas for the category extraction -/

theorem isPre_append_self (p r : List Char) : isPre p (p ++ r) = true := by
  induction p with
  | nil => rfl
  | cons a as ih => simp [isPre, ih]

theorem isPre_head (c : Char) (p l : List Char) (h : isPre (c :: p) l = true) :
    l.head? = some c := by
  cases l with
  | nil => simp [isPre] at h
  | cons b bs =>
    simp only [isPre, Bool.and_eq_true, decide_eq_true_eq] at h
    simp [h.1]

theorem getElem?_of_isPre (c : Char) (p s : List Char) (i : Nat)
    (h : isPre (c :: p) (s.drop i) = true) : s[i]? = some c := by
  have h1 : (s.drop i).head? = some c := isPre_head c p _ h
  rwa [List.head?_eq_getElem?, List.getElem?_drop, Nat.add_zero] at h1

/-- In `A ++ '<' :: B ++ '<' :: C` with `'<'` absent from `A`, `B`, `C`,
the only positions holding `'<'` are the two tag positions. -/
theorem lt_two_positions (A B C : List Char) (hA : '<' ∉ A) (hB : '<' ∉ B)
    (hC : '<' ∉ C) (i : Nat)
    (h : (A ++ '<' :: (B ++ '<' :: C))[i]? = some '<') :
    i = A.length ∨ i = A.length + 1 + B.length := by
  rcases Nat.lt_trichotomy i A.length with hlt | heq | hgt
  · exact absurd (List.getElem?_mem ((List.getElem?_append_left hlt).symm.trans h)) hA
  · exact Or.inl heq
  · rw [List.getElem?_append_right (le_of_lt hgt)] at h
    obtain ⟨j, hj⟩ : ∃ j, i - A.length = j + 1 := ⟨i - A.length - 1, by omega⟩
    rw [hj, List.getElem?_cons_succ] at h
    rcases Nat.lt_trichotomy j B.length with hlt2 | heq2 | hgt2
    · exact absurd (List.getElem?_mem ((List.getElem?_append_left hlt2).symm.trans h)) hB
    · right; omega
    · rw [List.getElem?_append_right (le_of_lt hgt2)] at h
      obtain ⟨k, hk⟩ : ∃ k, j - B.length = k + 1 := ⟨j - B.length - 1, by omega⟩
      rw [hk, List.getElem?_cons_succ] at h
      exact absurd (List.getElem?_mem h) hC

/-- The first occurrence of a pattern headed by a character absent from
`pre` and present at the seam is exactly at `pre.length`. -/
theorem findFirstIdx_at_seam (pre s : List Char) (c : Char) (p : List Char)
    (hpre : c ∉ pre) (hocc : isPre (c :: p) s = true) :
    findFirstIdx (c :: p) (pre ++ s) = some pre.length := by
  induction pre with
  | nil =>
    cases s with
    | nil => simp [isPre] at hocc
    | cons b bs => simp [findFirstIdx, hocc]
  | cons d ds ih =>
    have hcd : ¬ c = d := fun h => hpre (by simp [h])
    have hnp : isPre (c :: p) (d :: (ds ++ s)) = false := by
      simp [isPre, hcd]
    rw [List.cons_append]
    simp [findFirstIdx, hnp, ih (fun h => hpre (List.mem_cons_of_mem _ h))]

theorem findFirstIdx_sound (pat s : List Char) (i : Nat)
    (h : findFirstIdx pat s = some i) :
    i ≤ s.length ∧ isPre pat (s.drop i) = true := by
  induction s generalizing i with
  | nil =>
    by_cases hp : isPre pat [] = true
    · rw [findFirstIdx, if_pos hp] at h
      cases h
      exact ⟨Nat.le_refl _, hp⟩
    · rw [findFirstIdx, if_neg hp] at h
      cases h
  | cons c cs ih =>
    by_cases hp : isPre pat (c :: cs) = true
    · rw [findFirstIdx, if_pos hp] at h
      cases h
      exact ⟨Nat.zero_le _, hp⟩
    · rw [findFirstIdx, if_neg hp] at h
      rcases Option.map_eq_some'.mp h with ⟨j, hj, rfl⟩
      obtain ⟨h1, h2⟩ := ih j hj
      exact ⟨by simpa using Nat.succ_le_succ h1, by simpa using h2⟩

theorem findLastFrom_eq (pat s : List Char) (start j : Nat) (h1 : start ≤ j)
    (h2 : isPre pat (s.drop j) = true) (h3 : j ≤ s.length)
    (h4 : ∀ i, start ≤ i → isPre pat (s.drop i) = true → i = j) :
    findLastFrom pat s start = some j := by
  have hmem : j ∈ (List.range (s.length + 1)).filter
      (fun i => start ≤ i && isPre pat (s.drop i)) := by
    rw [List.mem_filter, List.mem_range]
    exact ⟨by omega, by simp [h1, h2]⟩
  have hall : ∀ x ∈ (List.range (s.length + 1)).filter
      (fun i => start ≤ i && isPre pat (s.drop i)), x = j := by
    intro x hx
    rw [List.mem_filter] at hx
    have hx2 := hx.2
    simp only [Bool.and_eq_true, decide_eq_true_eq] at hx2
    exact h4 x hx2.1 hx2.2
  have hnd : ((List.range (s.length + 1)).filter
      (fun i => start ≤ i && isPre pat (s.drop i))).Nodup :=
    (List.nodup_range _).filter _
  unfold findLastFrom
  cases hfil : (List.range (s.length + 1)).filter
      (fun i => start ≤ i && isPre pat (s.drop i)) with
  | nil => rw [hfil] at hmem; cases hmem
  | cons a l =>
    rw [hfil] at hall hnd
    have ha : a = j := hall a (List.mem_cons_self a l)
    cases l with
    | nil => simp [ha]
    | cons b l' =>
      have hb : b = j := hall b (List.mem_cons_of_mem _ (List.mem_cons_self b l'))
      rw [List.nodup_cons] at hnd
      exact absurd (by rw [ha, ← hb]; exact List.mem_cons_self b l') hnd.1

theorem extract_unclassified_of_absent (content : String)
    (h : containsSub openTag content.data = false) :
    extractCategory content = "Unclassified" := by
  cases hf : findFirstIdx openTag content.data with
  | none => simp [extractCategory, hf]
  | some i =>
    obtain ⟨hlen, hocc⟩ := findFirstIdx_sound _ _ _ hf
    have htrue : containsSub openTag content.data = true := by
      unfold containsSub
      rw [List.any_eq_true]
      exact ⟨i, List.mem_range.mpr (by omega), hocc⟩
    rw [h] at htrue
    cases htrue

/-- C6 main lemma: when the response is `pre <category> inner </category>
post` with `'<'` occurring nowhere else, the extraction returns the
trimmed enclosed text. -/
theorem extract_delimited (pre inner post : String)
    (hpre : '<' ∉ pre.data) (hinner : '<' ∉ inner.data) (hpost : '<' ∉ post.data) :
    extractCategory (pre ++ "<category>" ++ inner ++ "</category>" ++ post) =
      String.mk (trimWs inner.data) := by
  have hsdata : (pre ++ "<category>" ++ inner ++ "</category>" ++ post).data =
      pre.data ++ (openTag ++ (inner.data ++ (closeTag ++ post.data))) := by
    simp [openTag, closeTag, List.append_assoc]
  have hopen : openTag = '<' :: "category>".data := rfl
  have hclose : closeTag = '<' :: "/category>".data := rfl
  have h10 : openTag.length = 10 := rfl
  have h9 : ("category>".data).length = 9 := rfl
  have hshape : pre.data ++ (openTag ++ (inner.data ++ (closeTag ++ post.data))) =
      pre.data ++ '<' :: (("category>".data ++ inner.data) ++
        '<' :: ("/category>".data ++ post.data)) := by
    rw [hopen, hclose]
    simp [List.append_assoc]
  have hB : '<' ∉ "category>".data ++ inner.data := by
    rw [List.mem_append]
    rintro (h | h)
    · exact absurd h (by decide)
    · exact hinner h
  have hC : '<' ∉ "/category>".data ++ post.data := by
    rw [List.mem_append]
    rintro (h | h)
    · exact absurd h (by decide)
    · exact hpost h
  have hfirst : findFirstIdx openTag
      (pre.data ++ (openTag ++ (inner.data ++ (closeTag ++ post.data)))) =
        some pre.data.length := by
    rw [hopen]
    exact findFirstIdx_at_seam pre.data _ '<' _ hpre
      (by rw [← hopen]; exact isPre_append_self openTag _)
  have hdropj : (pre.data ++ (openTag ++ (inner.data ++ (closeTag ++ post.data)))).drop
      (pre.data.length + openTag.length + inner.data.length) =
        closeTag ++ post.data := by
    rw [show pre.data ++ (openTag ++ (inner.data ++ (closeTag ++ post.data))) =
        (pre.data ++ openTag ++ inner.data) ++ (closeTag ++ post.data) from by
      simp [List.append_assoc]]
    exact List.drop_left' (by simp; omega)
  have hlast : findLastFrom closeTag
      (pre.data ++ (openTag ++ (inner.data ++ (closeTag ++ post.data))))
      (pre.data.length + openTag.length) =
        some (pre.data.length + openTag.length + inner.data.length) := by
    apply findLastFrom_eq
    · omega
    · rw [hdropj]
      exact isPre_append_self _ _
    · simp [List.length_append]
      omega
    · intro i hi hocc
      have hlt : (pre.data ++ (openTag ++ (inner.data ++ (closeTag ++ post.data))))[i]? =
          some '<' := by
        apply getElem?_of_isPre '<' "/category>".data
        rw [← hclose]
        exact hocc
      rw [hshape] at hlt
      rcases lt_two_positions _ _ _ hpre hB hC i hlt with h | h
      · omega
      · rw [List.length_append, h9] at h
        omega
  have hdrop : (pre.data ++ (openTag ++ (inner.data ++ (closeTag ++ post.data)))).drop
      (pre.data.length + openTag.length) = inner.data ++ (closeTag ++ post.data) := by
    rw [show pre.data ++ (openTag ++ (inner.data ++ (closeTag ++ post.data))) =
        (pre.data ++ openTag) ++ (inner.data ++ (closeTag ++ post.data)) from by
      simp [List.append_assoc]]
    exact List.drop_left' (by simp)
  have harith : pre.data.length + openTag.length + inner.data.length -
      (pre.data.length + openTag.length) = inner.data.length := by omega
  simp only [extractCategory, hsdata, hfirst, hlast]
  rw [harith, hdrop, List.take_left' rfl]

/-- C6: a remote response containing the `<category>...</category>`
delimiter (and no stray `<` elsewhere) yields the enclosed
whitespace-trimmed text as the label, and a response in which the
delimiter is absent yields `"Unclassified"` rather than failing. -/
theorem llm_extract_category (pre inner post content : String)
    (hpre : '<' ∉ pre.data) (hinner : '<' ∉ inner.data) (hpost : '<' ∉ post.data)
    (habsent : containsSub openTag content.data = false) :
    extractCategory (pre ++ "<category>" ++ inner ++ "</category>" ++ post) =
      String.mk (trimWs inner.data) ∧
    extractCategory content = "Unclassified" :=
  ⟨extract_delimited pre inner post hpre hinner hpost,
   extract_unclassified_of_absent content habsent⟩

/-- C6 witness: the scenario response yields `"Workflow Error"` and a
tagless response yields `"Unclassified"`. -/
theorem llm_extract_category_witness :
    extractCategory ("The label is " ++ "<category>" ++ "Workflow Error" ++
      "</category>" ++ " as requested.") = String.mk (trimWs "Workflow Error".data) ∧
    extractCategory "no delimiter anywhere" = "Unclassified" :=
  llm_extract_category "The label is " "Workflow Error" " as requested."
    "no delimiter anywhere" (by decide) (by decide) (by decide) (by decide)

/-! ## C3 — regex table discipline -/

/-- C3: the pattern tier evaluates its table strictly in order and
returns the label of the first pattern matching anywhere in the message
(`"Backup completed successfully."` hits the third entry and yields
`"System Notification"`); an empty message yields `none` for any table; a
malformed entry is skipped with evaluation continuing over the rest of
the table; when every valid entry before a matching entry misses, the
matching entry's label is returned; and when every valid entry of the
table misses, the call returns `none`. -/
theorem regex_table_order :
    classify_with_regex "Backup completed successfully." = some "System Notification" ∧
    (∀ table, regexClassify table "" = none) ∧
    (∀ (t1 t2 : List (TablePat × String)) (label msg : String),
      classifyGo (t1 ++ (TablePat.malformed, label) :: t2) msg =
        classifyGo (t1 ++ t2) msg) ∧
    (∀ (t1 t2 : List (TablePat × String)) (r : Regex) (label msg : String),
      (∀ p l', (TablePat.ok p, l') ∈ t1 → reSearch p msg = false) →
      reSearch r msg = true → msg ≠ "" →
      regexClassify (t1 ++ (TablePat.ok r, label) :: t2) msg = some label) ∧
    (∀ (table : List (TablePat × String)) (msg : String),
      (∀ p l', (TablePat.ok p, l') ∈ table → reSearch p msg = false) →
      regexClassify table msg = none) := by
  refine ⟨by decide, fun table => by simp [regexClassify], ?_, ?_, ?_⟩
  · intro t1 t2 label msg
    induction t1 with
    | nil => simp [classifyGo]
    | cons e rest ih =>
      obtain ⟨p, l⟩ := e
      cases p with
      | malformed => simpa [classifyGo] using ih
      | ok q => by_cases h : reSearch q msg <;> simp [classifyGo, h, ih]
  · intro t1 t2 r label msg
    induction t1 with
    | nil =>
      intro hmiss hsearch hmsg
      rw [regexClassify, if_neg hmsg]
      simp [classifyGo, hsearch]
    | cons e rest ih =>
      intro hmiss hsearch hmsg
      have ihres := ih (fun p l' h => hmiss p l' (List.mem_cons_of_mem _ h)) hsearch hmsg
      rw [regexClassify, if_neg hmsg] at ihres ⊢
      obtain ⟨p, l⟩ := e
      cases p with
      | malformed => simpa [classifyGo] using ihres
      | ok q =>
        have hq : reSearch q msg = false := hmiss q l (List.mem_cons_self _ _)
        simpa [classifyGo, hq] using ihres
  · intro table msg
    induction table with
    | nil =>
      intro hmiss
      simp [regexClassify, classifyGo, ite_self]
    | cons e rest ih =>
      intro hmiss
      have ihres := ih (fun p l' h => hmiss p l' (List.mem_cons_of_mem _ h))
      by_cases hmsg : msg = ""
      · simp [regexClassify, hmsg]
      · rw [regexClassify, if_neg hmsg] at ihres ⊢
        obtain ⟨p, l⟩ := e
        cases p with
        | malformed => simpa [classifyGo] using ihres
        | ok q =>
          have hq : reSearch q msg = false := hmiss q l (List.mem_cons_self _ _)
          simpa [classifyGo, hq] using ihres

/-- C3 witness: the first-match clause applied to a table whose first two
valid entries miss and whose third entry matches the backup message, and
the total-miss clause applied to the production table with a message no
pattern matches. -/
theorem regex_table_order_witness :
    (regexClassify ([(TablePat.ok pat1, "User Action"),
        (TablePat.ok pat2, "System Notification")] ++
      (TablePat.ok pat3, "System Notification") ::
        [(TablePat.ok pat4, "System Notification")])
      "Backup completed successfully." = some "System Notification") ∧
    regexClassify regexPatterns "Hey Bro, chill ya!" = none :=
  ⟨regex_table_order.2.2.2.1
    [(TablePat.ok pat1, "User Action"), (TablePat.ok pat2, "System Notification")]
    [(TablePat.ok pat4, "System Notification")] pat3 "System Notification"
    "Backup completed successfully."
    (by
      intro p l' h
      simp only [List.mem_cons, List.not_mem_nil, or_false, Prod.mk.injEq,
        TablePat.ok.injEq] at h
      rcases h with ⟨hp, -⟩ | ⟨hp, -⟩ <;> subst hp <;> decide)
    (by decide) (by decide),
   regex_table_order.2.2.2.2 regexPatterns "Hey Bro, chill ya!"
    (by
      intro p l' h
      simp only [regexPatterns, List.mem_cons, List.not_mem_nil, or_false,
        Prod.mk.injEq, TablePat.ok.injEq] at h
      rcases h with ⟨hp, -⟩ | ⟨hp, -⟩ | ⟨hp, -⟩ | ⟨hp, -⟩ | ⟨hp, -⟩ | ⟨hp, -⟩ |
        ⟨hp, -⟩ | ⟨hp, -⟩ <;> subst hp <;> decide)⟩

/-! ## C9 — one metrics event per call, monotone counters -/

theorem record_classification_counts (s : MetricsState) (m : String) (t : ℚ) (e : Bool) :
    (record_classification s m t e).total_classifications = s.total_classifications + 1 ∧
    (record_classification s m t e).request_count = s.request_count + 1 ∧
    ∀ k, dictGet s.byMethod k ≤ dictGet (record_classification s m t e).byMethod k := by
  cases e
  · refine ⟨by simp [record_classification], by simp [record_classification], ?_⟩
    intro k
    by_cases hk : k = m
    · subst hk
      simp [record_classification, dictGet_dictSet_same]
    · simp [record_classification, dictGet_dictSet_ne _ _ _ _ hk]
  · refine ⟨by simp [record_classification], by simp [record_classification], ?_⟩
    intro k
    by_cases hk : k = "error"
    · subst hk
      simp [record_classification, dictGet_dictSet_same]
    · simp [record_classification, dictGet_dictSet_ne _ _ _ _ hk]

theorem classify_log_metrics_step (tiers : Tiers) (src msg : String) (t : ℚ)
    (s : MetricsState) :
    (classify_log tiers src msg t s).2 =
      record_classification s (classify_log tiers src msg t s).1.methodRecorded t
        (classify_log tiers src msg t s).1.errorFlag := by
  by_cases hsrc : src = "LegacyCRM"
  · rcases hllm : tiers.llmTier msg with e | l <;> simp [classify_log, hsrc, hllm]
  · rcases hre : tiers.regexTier msg with e | ol
    · simp [classify_log, hsrc, hre]
    · rcases ol with - | l
      · rcases hbe : tiers.bertTier msg with e | lb <;>
          simp [classify_log, hsrc, hre, hbe]
      · simp [classify_log, hsrc, hre]

theorem classify_log_total_step (tiers : Tiers) (src msg : String) (t : ℚ)
    (s : MetricsState) :
    (classify_log tiers src msg t s).2.total_classifications = s.total_classifications + 1 ∧
    (classify_log tiers src msg t s).2.request_count = s.request_count + 1 ∧
    ∀ k, dictGet s.byMethod k ≤ dictGet (classify_log tiers src msg t s).2.byMethod k := by
  rw [classify_log_metrics_step]
  exact record_classification_counts s _ t _

/-- C9: after a sequence of `N` dispatcher calls the total-classification
and request counters have grown by exactly `N` — each call records exactly
one metrics event, namely `record_classification` applied once with the
recorded method and error flag — and every per-method counter is
monotone non-decreasing across the sequence. -/
theorem metrics_total_counts_calls (tiers : Tiers) (calls : List (String × String × ℚ))
    (s : MetricsState) :
    (runSeq tiers calls s).total_classifications = s.total_classifications + calls.length ∧
    (runSeq tiers calls s).request_count = s.request_count + calls.length ∧
    (∀ src msg t s', (classify_log tiers src msg t s').2 =
      record_classification s' (classify_log tiers src msg t s').1.methodRecorded t
        (classify_log tiers src msg t s').1.errorFlag) ∧
    ∀ k, dictGet s.byMethod k ≤ dictGet (runSeq tiers calls s).byMethod k := by
  induction calls generalizing s with
  | nil =>
    exact ⟨by simp [runSeq], by simp [runSeq],
      fun src msg t s' => classify_log_metrics_step tiers src msg t s',
      fun k => le_refl _⟩
  | cons c rest ih =>
    obtain ⟨src, msg, t⟩ := c
    obtain ⟨h1, h2, h3⟩ := classify_log_total_step tiers src msg t s
    obtain ⟨ih1, ih2, -, ih4⟩ := ih (classify_log tiers src msg t s).2
    refine ⟨?_, ?_, fun src' msg' t' s' => classify_log_metrics_step tiers src' msg' t' s', ?_⟩
    · simp only [runSeq, ih1, h1, List.length_cons]
      omega
    · simp only [runSeq, ih2, h2, List.length_cons]
      omega
    · intro k
      exact le_trans (h3 k) (by simpa [runSeq] using ih4 k)

/-! ## C10 — the recorded method bucket -/

/-- C10: every completed dispatch records one of the methods `"regex"`,
`"bert"`, `"llm"` or `"error"`; the `"unclassified"` bucket is never
incremented; a low-confidence `"Unclassified"` result from the BERT tier
is still recorded under `"bert"`, and an LLM degradation to
`"Unclassified"` under `"llm"`. -/
theorem method_bucket_discipline (tiers : Tiers) (source msg : String) (t : ℚ)
    (s : MetricsState) :
    ((classify_log tiers source msg t s).1.methodRecorded = "regex" ∨
      (classify_log tiers source msg t s).1.methodRecorded = "bert" ∨
      (classify_log tiers source msg t s).1.methodRecorded = "llm" ∨
      (classify_log tiers source msg t s).1.methodRecorded = "error") ∧
    dictGet (classify_log tiers source msg t s).2.byMethod "unclassified" =
      dictGet s.byMethod "unclassified" ∧
    (source ≠ "LegacyCRM" → tiers.regexTier msg = .ok none →
      tiers.bertTier msg = .ok "Unclassified" →
      (classify_log tiers source msg t s).1.methodRecorded = "bert") ∧
    (source = "LegacyCRM" → tiers.llmTier msg = .ok "Unclassified" →
      (classify_log tiers source msg t s).1.methodRecorded = "llm") := by
  have hbucket : ∀ m : String, m = "regex" ∨ m = "bert" ∨ m = "llm" ∨ m = "error" →
      dictGet (record_classification s m t false).byMethod "unclassified" =
        dictGet s.byMethod "unclassified" := by
    intro m hm
    have hne : ("unclassified" : String) ≠ m := by
      rcases hm with h | h | h | h <;> subst h <;> decide
    simp [record_classification, dictGet_dictSet_ne _ _ _ _ hne]
  have herr : dictGet (record_classification s "error" t true).byMethod "unclassified" =
      dictGet s.byMethod "unclassified" := by
    have hne : ("unclassified" : String) ≠ "error" := by decide
    simp [record_classification, dictGet_dictSet_ne _ _ _ _ hne]
  by_cases hsrc : source = "LegacyCRM"
  · rcases hllm : tiers.llmTier msg with e | l
    · refine ⟨by simp [classify_log, hsrc, hllm], ?_, ?_, ?_⟩
      · simpa [classify_log, hsrc, hllm] using herr
      · intro h; exact absurd hsrc h
      · intro _ hco; cases hco
    · refine ⟨by simp [classify_log, hsrc, hllm], ?_, ?_, ?_⟩
      · simpa [classify_log, hsrc, hllm] using hbucket "llm" (by simp)
      · intro h; exact absurd hsrc h
      · intro _ _; simp [classify_log, hsrc, hllm]
  · rcases hre : tiers.regexTier msg with e | ol
    · refine ⟨by simp [classify_log, hsrc, hre], ?_, ?_, ?_⟩
      · simpa [classify_log, hsrc, hre] using herr
      · intro _ hco; cases hco
      · intro h; exact absurd h hsrc
    · rcases ol with - | l
      · rcases hbe : tiers.bertTier msg with e | lb
        · refine ⟨by simp [classify_log, hsrc, hre, hbe], ?_, ?_, ?_⟩
          · simpa [classify_log, hsrc, hre, hbe] using herr
          · intro _ _ hco; cases hco
          · intro h; exact absurd h hsrc
        · refine ⟨by simp [classify_log, hsrc, hre, hbe], ?_, ?_, ?_⟩
          · simpa [classify_log, hsrc, hre, hbe] using hbucket "bert" (by simp)
          · intro _ _ _; simp [classify_log, hsrc, hre, hbe]
          · intro h; exact absurd h hsrc
      · refine ⟨by simp [classify_log, hsrc, hre], ?_, ?_, ?_⟩
        · simpa [classify_log, hsrc, hre] using hbucket "regex" (by simp)
        · intro _ hco; cases hco
        · intro h; exact absurd h hsrc

/-- C10 witness: a regex miss followed by a low-confidence BERT result is
counted under `"bert"`, and a generative degradation under `"llm"`. -/
theorem method_bucket_discipline_witness :
    (classify_log lowConfTiers "WebServer" "m" 1 initMetrics).1.methodRecorded = "bert" ∧
    (classify_log lowConfTiers "LegacyCRM" "m" 1 initMetrics).1.methodRecorded = "llm" :=
  ⟨(method_bucket_discipline lowConfTiers "WebServer" "m" 1 initMetrics).2.2.1
      (by decide) rfl rfl,
   (method_bucket_discipline lowConfTiers "LegacyCRM" "m" 1 initMetrics).2.2.2 rfl rfl⟩

end LogClassify

example : LogClassify.classify_with_regex "Backup completed successfully." =
    some "System Notification" := by decide
